import Mathlib

/-!
Verification of the sox-effects binding layer (`src/torchaudio/sox_effects/sox_effects.py`)
against its specification.

The visible source is a thin wrapper: the effect-chain execution engine itself lives in
the native extension (`sox_ext`), which is not part of the visible source tree.  The
specification defines that engine (Sample Buffer, Effect Registry, Effect Chain Engine,
File Ingestion Adapter) as the language-agnostic core the binding fronts.  Definitions
below that embed that core are therefore modelled from the spec and say so in their doc
comments; definitions that embed visible Python code (the wrapper `apply_effects_file`
path check, the no-op lifecycle functions `init_sox_effects` / `shutdown_sox_effects`,
and `effect_names`) are translated directly from the source.
-/

namespace SoxEffects

/-- Sample dtypes of the data model (spec section 3). -/
inductive Dtype
  | float32
  | int16
  | int32
  | uint8
  deriving DecidableEq, Repr

/-- Channel layout flag of a sample buffer (spec section 3). -/
inductive ChannelLayout
  | channels_first
  | channels_last
  deriving DecidableEq, Repr

/-- Modelled from the spec: the Sample Buffer (section 3) — multi-channel PCM samples
together with a dtype and a channel-layout flag.  Sample values are represented
exactly as rationals; the sample rate travels separately, as in the engine contract
`run(initialBuffer, sampleRate, effectSpecs)` of section 4.3. -/
structure SampleBuffer where
  dtype : Dtype
  layout : ChannelLayout
  samples : List (List ℚ)
  deriving DecidableEq, Repr

/-- Modelled from the spec: a failure of one effect's `apply`, carrying the offending
argument token when applicable (spec section 7). -/
structure EffectFailure where
  offendingToken : Option String
  deriving DecidableEq, Repr

/-- Modelled from the spec: a configured Effect (section 3) — a single
`apply(samples, rate)` operation that may fail; it transforms sample data and rate
(possibly different length, channel count, or rate). -/
structure Effect where
  apply : List (List ℚ) → ℕ → Except EffectFailure (List (List ℚ) × ℕ)

/-- Modelled from the spec: a Registry factory (section 4.2) parses the argument tokens
of an EffectSpec into a configured Effect, failing with the offending token on
malformed input. -/
def Factory : Type := List String → Except String Effect

/-- Modelled from the spec: the Effect Registry (section 4.2) maps effect names to
factories; it is an ordered mapping, read-only during chain execution. -/
def Registry : Type := List (String × Factory)

/-- Modelled from the spec: case-sensitive, exact-string lookup of a name in the
Registry (section 4.2); no fuzzy resolution. -/
def Registry.find : Registry → String → Option Factory
  | [], _ => none
  | (n, f) :: rest, name => if n = name then some f else Registry.find rest name

/-- Modelled from the spec: errors surfaced by the chain engine (sections 4.2 and 7).
Every error carries the failing effect's name and its 1-based position in the chain;
argument errors carry the offending token. -/
inductive RunError
  | unknownEffect (name : String) (position : ℕ)
  | invalidArgument (name : String) (position : ℕ) (token : String)
  | applyFailed (name : String) (position : ℕ) (token : Option String)
  deriving DecidableEq, Repr

/-- The failing effect's name recorded in a chain error. -/
def RunError.effectName : RunError → String
  | .unknownEffect n _ => n
  | .invalidArgument n _ _ => n
  | .applyFailed n _ _ => n

/-- The 1-based chain position recorded in a chain error. -/
def RunError.position : RunError → ℕ
  | .unknownEffect _ p => p
  | .invalidArgument _ p _ => p
  | .applyFailed _ p _ => p

/-- Modelled from the spec: resolve one EffectSpec via the Registry and apply the
resulting Effect to the current buffer and rate (section 4.3).  `pos` is the spec's
1-based position in the chain, recorded in any error.  The engine rebuilds the buffer
around the effect's output samples, preserving the dtype and layout metadata. -/
def applyOne (reg : Registry) (pos : ℕ) (spec : String × List String)
    (buf : SampleBuffer) (rate : ℕ) : Except RunError (SampleBuffer × ℕ) :=
  match Registry.find reg spec.1 with
  | none => .error (.unknownEffect spec.1 pos)
  | some factory =>
    match factory spec.2 with
    | .error tok => .error (.invalidArgument spec.1 pos tok)
    | .ok eff =>
      match eff.apply buf.samples rate with
      | .error f => .error (.applyFailed spec.1 pos f.offendingToken)
      | .ok (smp, r) => .ok ({ buf with samples := smp }, r)

/-- Modelled from the spec: the Effect Chain Engine loop (section 4.3) starting at
1-based position `pos`: for each spec in order, resolve and apply it, feeding the
output of one effect as input to the next; abort immediately on the first failure. -/
def runFrom (reg : Registry) (pos : ℕ) (buf : SampleBuffer) (rate : ℕ) :
    List (String × List String) → Except RunError (SampleBuffer × ℕ)
  | [] => .ok (buf, rate)
  | spec :: rest =>
    match applyOne reg pos spec buf rate with
    | .error e => .error e
    | .ok br => runFrom reg (pos + 1) br.1 br.2 rest

/-- Modelled from the spec: the Effect Chain Engine entry point
`run(initialBuffer, sampleRate, effectSpecs)` (section 4.3). -/
def run (reg : Registry) (buf : SampleBuffer) (rate : ℕ)
    (effects : List (String × List String)) : Except RunError (SampleBuffer × ℕ) :=
  runFrom reg 1 buf rate effects

/-- Running the engine over a concatenated chain is running the first part, then the
second from where the first left off (position shifted by the first part's length). -/
lemma runFrom_append (reg : Registry) (xs ys : List (String × List String)) :
    ∀ (pos : ℕ) (buf : SampleBuffer) (rate : ℕ),
      runFrom reg pos buf rate (xs ++ ys) =
        match runFrom reg pos buf rate xs with
        | .ok br => runFrom reg (pos + xs.length) br.1 br.2 ys
        | .error e => .error e := by
  induction xs with
  | nil =>
    intro pos buf rate
    simp [runFrom]
  | cons s rest ih =>
    intro pos buf rate
    simp only [List.cons_append, runFrom]
    cases h : applyOne reg pos s buf rate with
    | error e => rfl
    | ok br =>
      show runFrom reg (pos + 1) br.1 br.2 (rest ++ ys) =
        match runFrom reg (pos + 1) br.1 br.2 rest with
        | .ok br' => runFrom reg (pos + (s :: rest).length) br'.1 br'.2 ys
        | .error e => .error e
      rw [ih]
      have hlen : pos + (s :: rest).length = pos + 1 + rest.length := by
        rw [List.length_cons]; omega
      rw [hlen]

/-- Any error produced by resolving and applying one spec carries that spec's effect
name and the position it was applied at. -/
lemma applyOne_error_meta {reg : Registry} {pos : ℕ} {spec : String × List String}
    {buf : SampleBuffer} {rate : ℕ} {e : RunError}
    (h : applyOne reg pos spec buf rate = .error e) :
    e.effectName = spec.1 ∧ e.position = pos := by
  unfold applyOne at h
  split at h
  · exact ⟨by cases h; rfl, by cases h; rfl⟩
  · split at h
    · exact ⟨by cases h; rfl, by cases h; rfl⟩
    · split at h
      · exact ⟨by cases h; rfl, by cases h; rfl⟩
      · cases h

/-- A successful application of one spec preserves the buffer's dtype and layout:
the engine only replaces sample data and rate. -/
lemma applyOne_ok_meta {reg : Registry} {pos : ℕ} {spec : String × List String}
    {buf : SampleBuffer} {rate : ℕ} {br : SampleBuffer × ℕ}
    (h : applyOne reg pos spec buf rate = .ok br) :
    br.1.dtype = buf.dtype ∧ br.1.layout = buf.layout := by
  unfold applyOne at h
  split at h
  · cases h
  · split at h
    · cases h
    · split at h
      · cases h
      · cases h; exact ⟨rfl, rfl⟩

/-- A successful chain run preserves the buffer's dtype and layout metadata. -/
lemma runFrom_ok_meta :
    ∀ (es : List (String × List String)) {reg : Registry} {pos : ℕ}
      {buf : SampleBuffer} {rate : ℕ} {br : SampleBuffer × ℕ},
      runFrom reg pos buf rate es = .ok br →
      br.1.dtype = buf.dtype ∧ br.1.layout = buf.layout := by
  intro es
  induction es with
  | nil =>
    intro reg pos buf rate br h
    cases h
    exact ⟨rfl, rfl⟩
  | cons s rest ih =>
    intro reg pos buf rate br h
    rw [runFrom] at h
    cases hs : applyOne reg pos s buf rate with
    | error e => rw [hs] at h; cases h
    | ok br₁ =>
      rw [hs] at h
      have h₁ := applyOne_ok_meta hs
      have h₂ := ih h
      exact ⟨h₂.1.trans h₁.1, h₂.2.trans h₁.2⟩

/-- C4: running the chain with a single effect spec whose name is not registered fails
with the unknown-effect error carrying that name and position 1; the engine being a
pure function of the read-only registry, no caller-visible state is modified, and no
buffer is returned. -/
theorem run_unknown_effect (reg : Registry) (buf : SampleBuffer) (rate : ℕ)
    (h : Registry.find reg "doesnotexist" = none) :
    run reg buf rate [("doesnotexist", [])] =
      .error (.unknownEffect "doesnotexist" 1) := by
  simp [run, runFrom, applyOne, h]

/-- Witness for C4 at the empty registry and a concrete one-channel buffer. -/
theorem run_unknown_effect_witness :
    run [] ⟨.float32, .channels_first, [[0]]⟩ 16000 [("doesnotexist", [])] =
      .error (.unknownEffect "doesnotexist" 1) :=
  run_unknown_effect [] ⟨.float32, .channels_first, [[0]]⟩ 16000 rfl

/-- C5: when the chain reaches a spec whose resolution or application fails, the engine
aborts immediately with that error — for every continuation of the chain the result is
the same error value (so subsequent effects are never applied and no partial buffer is
returned), and the error carries the failing effect's name and its 1-based position. -/
theorem run_first_failure_aborts (reg : Registry) (b : SampleBuffer) (r : ℕ)
    (pre : List (String × List String)) (bad : String × List String)
    (post : List (String × List String)) (b' : SampleBuffer) (r' : ℕ) (e : RunError)
    (hpre : runFrom reg 1 b r pre = .ok (b', r'))
    (hbad : applyOne reg (pre.length + 1) bad b' r' = .error e) :
    run reg b r (pre ++ bad :: post) = .error e ∧
      e.effectName = bad.1 ∧ e.position = pre.length + 1 := by
  have hmeta := applyOne_error_meta hbad
  refine ⟨?_, hmeta.1, hmeta.2⟩
  rw [run, runFrom_append, hpre]
  show runFrom reg (1 + pre.length) b' r' (bad :: post) = .error e
  have hpos : 1 + pre.length = pre.length + 1 := Nat.add_comm 1 pre.length
  rw [hpos, runFrom, hbad]

/-- Witness for C5: an unregistered effect in first position aborts the chain before a
trailing effect is ever considered. -/
theorem run_first_failure_aborts_witness :
    run [] ⟨.int16, .channels_first, [[1, 2]]⟩ 8000
        ([] ++ ("doesnotexist", []) :: [("gain", ["-n"])]) =
      .error (.unknownEffect "doesnotexist" 1) ∧
      RunError.effectName (.unknownEffect "doesnotexist" 1) = "doesnotexist" ∧
      RunError.position (.unknownEffect "doesnotexist" 1) = List.length ([] : List (String × List String)) + 1 :=
  run_first_failure_aborts [] ⟨.int16, .channels_first, [[1, 2]]⟩ 8000
    [] ("doesnotexist", []) [("gain", ["-n"])] ⟨.int16, .channels_first, [[1, 2]]⟩ 8000
    (.unknownEffect "doesnotexist" 1) rfl rfl

/-- C6: the engine applies exactly the given effects in the given order — a singleton
chain applies precisely that one spec, and a concatenated chain is the first part
followed by the second from the first part's output buffer and rate, with positions
continuing in sequence; no reordering and no implicit effect insertion. -/
theorem run_strictly_sequential :
    (∀ (reg : Registry) (b : SampleBuffer) (r : ℕ) (s : String × List String),
        run reg b r [s] = applyOne reg 1 s b r) ∧
    (∀ (reg : Registry) (b : SampleBuffer) (r : ℕ)
        (es₁ es₂ : List (String × List String)),
        run reg b r (es₁ ++ es₂) =
          match run reg b r es₁ with
          | .ok br => runFrom reg (1 + es₁.length) br.1 br.2 es₂
          | .error e => .error e) := by
  constructor
  · intro reg b r s
    rw [run, runFrom]
    cases h : applyOne reg 1 s b r with
    | error e => rfl
    | ok br => rfl
  · intro reg b r es₁ es₂
    rw [run, runFrom_append]
    rfl

/-- C7: the engine is deterministic — identical registry, buffer, rate, and effects
lists yield identical results (it is a pure function of its inputs). -/
theorem run_deterministic (reg : Registry) (b₁ b₂ : SampleBuffer) (r₁ r₂ : ℕ)
    (es₁ es₂ : List (String × List String))
    (hb : b₁ = b₂) (hr : r₁ = r₂) (he : es₁ = es₂) :
    run reg b₁ r₁ es₁ = run reg b₂ r₂ es₂ := by
  subst hb; subst hr; subst he; rfl

/-- Witness for C7 at a concrete buffer, rate, and effects list. -/
theorem run_deterministic_witness :
    run [] ⟨.float32, .channels_last, [[0, 1]]⟩ 44100 [("gain", ["3"])] =
      run [] ⟨.float32, .channels_last, [[0, 1]]⟩ 44100 [("gain", ["3"])] :=
  run_deterministic [] ⟨.float32, .channels_last, [[0, 1]]⟩
    ⟨.float32, .channels_last, [[0, 1]]⟩ 44100 44100 [("gain", ["3"])] [("gain", ["3"])]
    rfl rfl rfl

/-- C2: an empty effect-spec sequence is the identity transform — the engine returns the
input buffer and the same sample rate unchanged. -/
theorem run_empty_identity (reg : Registry) (buf : SampleBuffer) (rate : ℕ) :
    run reg buf rate [] = .ok (buf, rate) := rfl

/-- A Python argument passed as `path` to the wrapper, as the source inspects it:
whether it has a `read` attribute (i.e. is a file-like object), and the path string
`os.fspath` would produce for it. -/
structure PathArg where
  hasRead : Bool
  fspath : String
  deriving DecidableEq, Repr

/-- The error message raised by the source's `apply_effects_file` for file-like
objects (sox_effects.py lines 270-273). -/
def fileLikeErrorMsg : String :=
  "apply_effects_file function does not support file-like object. Please use torchaudio.io.AudioEffector."

/-- The source's `apply_effects_file` wrapper (sox_effects.py lines 268-275, eager
path): if the argument has a `read` attribute it raises before anything else;
otherwise it resolves the path and forwards everything to the native extension,
represented here by the parameter `sox_ext_apply`. -/
def apply_effects_file {α : Type}
    (sox_ext_apply : String → List (String × List String) → Bool → Bool → Option String → α)
    (path : PathArg) (effects : List (String × List String))
    (normalize channels_first : Bool) (format : Option String) : Except String α :=
  if path.hasRead then Except.error fileLikeErrorMsg
  else Except.ok (sox_ext_apply path.fspath effects normalize channels_first format)

/-- C1: for every file-like argument (one with a `read` attribute) the wrapper raises
the same error regardless of what the native extension would compute — so the
extension is never invoked and no effect processing occurs — and the error message
directs the caller to the streaming effector API `torchaudio.io.AudioEffector`. -/
theorem apply_effects_file_rejects_file_like {α : Type}
    (sox_ext_apply : String → List (String × List String) → Bool → Bool → Option String → α)
    (path : PathArg) (effects : List (String × List String))
    (normalize channels_first : Bool) (format : Option String)
    (h : path.hasRead = true) :
    apply_effects_file sox_ext_apply path effects normalize channels_first format =
      Except.error fileLikeErrorMsg ∧
    ∃ pre post, fileLikeErrorMsg = pre ++ "torchaudio.io.AudioEffector" ++ post := by
  refine ⟨?_, "apply_effects_file function does not support file-like object. Please use ", ".", ?_⟩
  · simp [apply_effects_file, h]
  · rfl

/-- Witness for C1 at a concrete file-like argument and a trivial extension. -/
theorem apply_effects_file_rejects_file_like_witness :
    apply_effects_file (fun _ _ _ _ _ => ()) ⟨true, "a.wav"⟩ [("gain", ["-n"])] true true none =
      Except.error fileLikeErrorMsg ∧
    ∃ pre post, fileLikeErrorMsg = pre ++ "torchaudio.io.AudioEffector" ++ post :=
  apply_effects_file_rejects_file_like (fun _ _ _ _ _ => ()) ⟨true, "a.wav"⟩
    [("gain", ["-n"])] true true none rfl

/-- The source's `init_sox_effects` (sox_effects.py lines 13-25): its body is `pass`,
so on any program state it reads and writes nothing. -/
def init_sox_effects {σ : Type} (s : σ) : σ := s

/-- The source's `shutdown_sox_effects` (sox_effects.py lines 28-39): its body is
`pass`, so on any program state it reads and writes nothing. -/
def shutdown_sox_effects {σ : Type} (s : σ) : σ := s

/-- A call to one of the two lifecycle functions. -/
inductive LifecycleCall
  | init
  | shutdown
  deriving DecidableEq, Repr

/-- Execute one lifecycle call on the program state. -/
def stepLifecycle {σ : Type} (s : σ) : LifecycleCall → σ
  | .init => init_sox_effects s
  | .shutdown => shutdown_sox_effects s

/-- C9: any sequence of `init_sox_effects` / `shutdown_sox_effects` calls, in any
order and number, leaves every program state unchanged, and effect application
through the engine behaves identically before and after such calls. -/
theorem lifecycle_calls_are_noops :
    (∀ (σ : Type) (s : σ) (calls : List LifecycleCall),
        List.foldl stepLifecycle s calls = s) ∧
    (∀ (calls : List LifecycleCall) (reg : Registry) (b : SampleBuffer) (r : ℕ)
        (es : List (String × List String)),
        run (List.foldl stepLifecycle reg calls) b r es = run reg b r es) := by
  have hfold : ∀ (σ : Type) (s : σ) (calls : List LifecycleCall),
      List.foldl stepLifecycle s calls = s := by
    intro σ s calls
    induction calls generalizing s with
    | nil => rfl
    | cons c rest ih => cases c <;> exact ih _
  exact ⟨hfold, fun calls reg b r es => by rw [hfold]⟩

/-- Modelled from the spec: `list_effects` (imported from `torchaudio.utils.sox_utils`,
not part of the visible source) exposes the Registry's name-to-usage mapping; this
returns its keys in registration order, which `effect_names` converts to a list. -/
def list_effects_keys (reg : Registry) : List String := reg.map Prod.fst

/-- The source's `effect_names` (sox_effects.py lines 42-53):
`return list(list_effects().keys())`. -/
def effect_names (reg : Registry) : List String := list_effects_keys reg

/-- C8: `effect_names` returns exactly the names registered in the Registry — a name
appears in the returned ordered sequence if and only if Registry lookup finds it. -/
theorem effect_names_exact (reg : Registry) (name : String) :
    name ∈ effect_names reg ↔ (Registry.find reg name).isSome := by
  induction reg with
  | nil => simp [effect_names, list_effects_keys, Registry.find]
  | cons p rest ih =>
    obtain ⟨n, f⟩ := p
    by_cases h : n = name
    · subst h
      simp [effect_names, list_effects_keys, Registry.find]
    · simp only [effect_names, list_effects_keys, Registry.find] at *
      simp [List.mem_cons, h, Ne.symm h, ih]

/-- A 2D tensor as the binding sees it: a dtype and two-dimensional sample data whose
outer dimension is channels or time according to the caller's `channels_first` flag. -/
structure Tensor where
  dtype : Dtype
  data : List (List ℚ)
  deriving DecidableEq, Repr

/-- The buffer layout selected by the `channels_first` flag. -/
def layoutOf (channels_first : Bool) : ChannelLayout :=
  if channels_first then .channels_first else .channels_last

/-- Modelled from the spec: the native extension's `apply_effects_tensor` (the
implementation behind sox_effects.py line 158, not part of the visible source) —
it wraps the input tensor as a Sample Buffer in the caller's layout convention,
runs the Effect Chain Engine, and returns the resulting buffer's samples as a
tensor in that same convention with the buffer's dtype. -/
def apply_effects_tensor (reg : Registry) (tensor : Tensor) (sample_rate : ℕ)
    (effects : List (String × List String)) (channels_first : Bool) :
    Except RunError (Tensor × ℕ) :=
  match run reg ⟨tensor.dtype, layoutOf channels_first, tensor.data⟩ sample_rate effects with
  | .error e => .error e
  | .ok br => .ok (⟨br.1.dtype, br.1.samples⟩, br.2)

/-- C10: a successful chain run preserves the buffer's dtype and layout convention,
and consequently a successful `apply_effects_tensor` returns a tensor of the same
dtype as the input whose data is the engine's output buffer read in the very layout
selected by `channels_first` (the shape and output rate may differ). -/
theorem apply_effects_tensor_preserves_dtype_layout :
    (∀ (reg : Registry) (b : SampleBuffer) (r : ℕ)
        (es : List (String × List String)) (b' : SampleBuffer) (r' : ℕ),
        run reg b r es = .ok (b', r') → b'.dtype = b.dtype ∧ b'.layout = b.layout) ∧
    (∀ (reg : Registry) (t : Tensor) (r : ℕ) (es : List (String × List String))
        (cf : Bool) (t' : Tensor) (r' : ℕ),
        apply_effects_tensor reg t r es cf = .ok (t', r') →
        t'.dtype = t.dtype ∧
        ∃ b', run reg ⟨t.dtype, layoutOf cf, t.data⟩ r es = .ok (b', r') ∧
          t'.data = b'.samples ∧ b'.layout = layoutOf cf) := by
  have hrun : ∀ (reg : Registry) (b : SampleBuffer) (r : ℕ)
      (es : List (String × List String)) (b' : SampleBuffer) (r' : ℕ),
      run reg b r es = .ok (b', r') → b'.dtype = b.dtype ∧ b'.layout = b.layout := by
    intro reg b r es b' r' h
    exact runFrom_ok_meta es h
  refine ⟨hrun, ?_⟩
  intro reg t r es cf t' r' h
  unfold apply_effects_tensor at h
  cases hr : run reg ⟨t.dtype, layoutOf cf, t.data⟩ r es with
  | error e => rw [hr] at h; cases h
  | ok br =>
    rw [hr] at h
    obtain ⟨b₁, r₁⟩ := br
    cases h
    have hmeta := hrun _ _ _ _ b₁ r₁ hr
    exact ⟨hmeta.1, b₁, rfl, rfl, hmeta.2⟩

/-- Witness for C10 with the empty chain on a concrete int16 tensor. -/
theorem apply_effects_tensor_preserves_dtype_layout_witness :
    Tensor.dtype ⟨.int16, [[1, 2]]⟩ = Dtype.int16 ∧
    ∃ b', run [] ⟨Dtype.int16, layoutOf true, [[1, 2]]⟩ 8000 [] = .ok (b', 8000) ∧
      Tensor.data ⟨.int16, [[1, 2]]⟩ = b'.samples ∧ b'.layout = layoutOf true :=
  apply_effects_tensor_preserves_dtype_layout.2 [] ⟨.int16, [[1, 2]]⟩ 8000 [] true
    ⟨.int16, [[1, 2]]⟩ 8000 rfl

/-- Modelled from the spec: the native encodings the File Ingestion Adapter reports —
integer WAV of a given bit width, or a non-integer format (for which the `normalize`
argument has no effect). -/
inductive NativeFormat
  | intWav (width : ℕ)
  | nonInt
  deriving DecidableEq, Repr

/-- Modelled from the spec: an encoded audio file as the Ingestion Adapter sees it —
its native format, sample rate, and decoded sample values (integer sample values for
integer WAV; already-scaled values for non-integer formats). -/
structure AudioFile where
  format : NativeFormat
  sampleRate : ℕ
  raw : List (List ℚ)
  deriving DecidableEq, Repr

/-- The tensor dtype corresponding to a supported integer-WAV bit width; 24-bit (and
any other width) is unsupported. -/
def nativeDtype : ℕ → Option Dtype
  | 8 => some .uint8
  | 16 => some .int16
  | 32 => some .int32
  | _ => none

/-- Modelled from the spec: the Ingestion Adapter's `decode` (section 4.4) — it
decodes the file into the engine's internal 32-bit integer PCM domain (width-w
integer samples are shifted up to 32-bit scale; non-integer samples are scaled by
2^31), in the layout the caller requested. -/
def decode (file : AudioFile) (channels_first : Bool) : SampleBuffer :=
  match file.format with
  | .intWav w =>
    ⟨.int32, layoutOf channels_first,
      file.raw.map (fun ch => ch.map (fun v => v * 2 ^ (32 - w)))⟩
  | .nonInt =>
    ⟨.int32, layoutOf channels_first,
      file.raw.map (fun ch => ch.map (fun v => v * 2 ^ 31))⟩

/-- Saturate a sample value to the engine's internal 32-bit integer range. -/
def sat32 (q : ℚ) : ℚ := max (-(2 ^ 31)) (min (2 ^ 31 - 1) q)

/-- Modelled from the spec: normalization (glossary) — conversion of an internal
32-bit integer PCM sample to float32 in the range [-1, 1]. -/
def toFloat32 (q : ℚ) : ℚ := sat32 q / 2 ^ 31

/-- Conversion of an internal 32-bit sample back to the native w-bit scale. -/
def toNative (w : ℕ) (q : ℚ) : ℚ := sat32 q / 2 ^ (32 - w)

/-- Rebuild a buffer with every sample converted by `f` and the dtype set to `d`
(conversions produce a new buffer, never mutate in place). -/
def mapSamples (f : ℚ → ℚ) (d : Dtype) (b : SampleBuffer) : SampleBuffer :=
  ⟨d, b.layout, b.samples.map (List.map f)⟩

/-- Errors of the file entry point: a chain-engine error, or an unsupported native
format on output conversion. -/
inductive FileError
  | chain (e : RunError)
  | unsupportedFormat
  deriving DecidableEq, Repr

/-- Modelled from the spec: `applyEffectsToFile` (section 6, the native implementation
behind sox_effects.py line 275) — decode the file, run the Effect Chain Engine, then
convert the result: with `normalize` true the samples become float32 in [-1, 1]; with
`normalize` false an integer-WAV file keeps its native integer dtype, failing with
the unsupported-format error for widths without a dtype (24-bit), while non-integer
formats ignore `normalize` and yield float32. -/
def applyEffectsToFile (reg : Registry) (file : AudioFile)
    (effects : List (String × List String)) (normalize channels_first : Bool) :
    Except FileError (SampleBuffer × ℕ) :=
  match run reg (decode file channels_first) file.sampleRate effects with
  | .error e => .error (.chain e)
  | .ok br =>
    if normalize then .ok (mapSamples toFloat32 .float32 br.1, br.2)
    else
      match file.format with
      | .intWav w =>
        match nativeDtype w with
        | none => .error .unsupportedFormat
        | some d => .ok (mapSamples (toNative w) d br.1, br.2)
      | .nonInt => .ok (mapSamples toFloat32 .float32 br.1, br.2)

/-- Normalized samples always lie in [-1, 1]. -/
lemma toFloat32_mem_Icc (q : ℚ) : -1 ≤ toFloat32 q ∧ toFloat32 q ≤ 1 := by
  have hpos : (0 : ℚ) < 2 ^ 31 := by positivity
  unfold toFloat32 sat32
  constructor
  · rw [le_div_iff₀ hpos]
    have h : (-1 : ℚ) * 2 ^ 31 = -(2 ^ 31) := by ring
    rw [h]
    exact le_max_left _ _
  · rw [div_le_one hpos]
    refine max_le (by linarith) ?_
    calc min ((2 : ℚ) ^ 31 - 1) q ≤ 2 ^ 31 - 1 := min_le_left _ _
      _ ≤ 2 ^ 31 := by linarith

/-- C3: with `normalize` true, a successful `applyEffectsToFile` yields a float32
buffer all of whose samples lie in [-1, 1]; with `normalize` false, an integer-WAV
file of a supported width keeps its native integer dtype, while 24-bit integer WAV
fails with the unsupported-format error. -/
theorem applyEffectsToFile_normalize_dtype :
    (∀ (reg : Registry) (file : AudioFile) (es : List (String × List String))
        (cf : Bool) (b : SampleBuffer) (r : ℕ),
        applyEffectsToFile reg file es true cf = .ok (b, r) →
        b.dtype = .float32 ∧ ∀ ch ∈ b.samples, ∀ q ∈ ch, -1 ≤ q ∧ q ≤ 1) ∧
    (∀ (reg : Registry) (file : AudioFile) (es : List (String × List String))
        (cf : Bool) (b : SampleBuffer) (r w : ℕ) (d : Dtype),
        file.format = .intWav w → nativeDtype w = some d →
        applyEffectsToFile reg file es false cf = .ok (b, r) → b.dtype = d) ∧
    (∀ (reg : Registry) (file : AudioFile) (es : List (String × List String))
        (cf : Bool) (br : SampleBuffer × ℕ),
        file.format = .intWav 24 →
        run reg (decode file cf) file.sampleRate es = .ok br →
        applyEffectsToFile reg file es false cf = .error .unsupportedFormat) := by
  refine ⟨?_, ?_, ?_⟩
  · intro reg file es cf b r h
    unfold applyEffectsToFile at h
    cases hr : run reg (decode file cf) file.sampleRate es with
    | error e => rw [hr] at h; cases h
    | ok br =>
      rw [hr] at h
      simp only [if_true] at h
      cases h
      refine ⟨rfl, ?_⟩
      intro ch hch q hq
      simp only [mapSamples, List.mem_map] at hch
      obtain ⟨ch₀, _, hch₀⟩ := hch
      subst hch₀
      simp only [List.mem_map] at hq
      obtain ⟨q₀, _, hq₀⟩ := hq
      subst hq₀
      exact toFloat32_mem_Icc q₀
  · intro reg file es cf b r w d hfmt hdt h
    unfold applyEffectsToFile at h
    cases hr : run reg (decode file cf) file.sampleRate es with
    | error e => rw [hr] at h; cases h
    | ok br =>
      rw [hr] at h
      simp only [if_false, Bool.false_eq_true, hfmt, hdt] at h
      cases h
      rfl
  · intro reg file es cf br hfmt hr
    unfold applyEffectsToFile
    rw [hr]
    simp [hfmt, nativeDtype]

/-- Witness for C3 at a 16-bit integer WAV file holding one zero sample, the empty
registry, and the empty chain, with `normalize` true. -/
theorem applyEffectsToFile_normalize_dtype_witness :
    SampleBuffer.dtype ⟨.float32, .channels_first, [[0]]⟩ = Dtype.float32 ∧
    ∀ ch ∈ ([[(0 : ℚ)]] : List (List ℚ)), ∀ q ∈ ch, -1 ≤ q ∧ q ≤ 1 :=
  applyEffectsToFile_normalize_dtype.1 [] ⟨.intWav 16, 8000, [[0]]⟩ [] true
    ⟨.float32, .channels_first, [[0]]⟩ 8000
    (by norm_num [applyEffectsToFile, run, runFrom, decode, mapSamples, toFloat32,
      sat32, layoutOf])

end SoxEffects
